import Mathlib

/-!
Verification of the Gemgem match-3 board-simulation core.

The repository holds three parallel implementations of the same game:
`src/main.py` (procedural pygame version), `src/pygame_gem.py` (class-based
pygame port) and `src/arcade_gem.py` (arcade port).  The board is a
`BOARD_WIDTH x BOARD_HEIGHT` array of integers indexed as `board[x][y]`
(`x` = column, `y` = row, `y = 0` at the top in the pygame versions), with
`EMPTY_SPACE = -1` marking an empty cell.

The board is embedded as a total function `Int -> Int -> Int`: the Python
board is a rectangular array addressed through the bounds-checked accessor
`get_gem_at`, so a total function together with that accessor captures the
data model exactly; per-column operations that rebuild Python lists
(`pull_down_all_gems`) are embedded over `List Int` columns, mirroring the
source.  `random.choice` is embedded as an explicit choice-function
parameter.
-/

/-- BOARD_WIDTH constant from all three sources (8 columns). -/
def BOARD_WIDTH : Int := 8

/-- BOARD_HEIGHT constant from all three sources (8 rows). -/
def BOARD_HEIGHT : Int := 8

/-- EMPTY_SPACE sentinel (-1) marking a cell holding no gem. -/
def EMPTY_SPACE : Int := -1

/-- NUM_GEM_IMAGES from main.py / pygame_gem.py: the number of gem kinds. -/
def NUM_GEM_IMAGES : Nat := 7

/-- A board maps (column, row) coordinates to the stored cell value. -/
abbrev Board := Int → Int → Int

/-- Cell update, the embedding of the assignment `board[x][y] = v`. -/
def setCell (b : Board) (x y v : Int) : Board :=
  fun x' y' => if x' = x ∧ y' = y then v else b x' y'

/-- Accessor from main.py `get_gem_at` (lines 498-503) and
pygame_gem.py `GameBoard.get_gem_at` (lines 317-322):
`if x < 0 or y < 0 or x >= BOARD_WIDTH or y >= BOARD_HEIGHT: return None`
else `return board[x][y]`. -/
def get_gem_at (b : Board) (x y : Int) : Option Int :=
  if x < 0 ∨ y < 0 ∨ BOARD_WIDTH ≤ x ∨ BOARD_HEIGHT ≤ y then none
  else some (b x y)

/-- Accessor from arcade_gem.py `get_gem_at` (lines 278-285):
`if 0 < x < BOARD_WIDTH and 0 < y < BOARD_HEIGHT: return board[x][y]`
else `return None`.  Note the strict `0 < x` / `0 < y` comparisons. -/
def arcade_get_gem_at (b : Board) (x y : Int) : Option Int :=
  if 0 < x ∧ x < BOARD_WIDTH ∧ 0 < y ∧ y < BOARD_HEIGHT then some (b x y)
  else none

/-- A concrete board holding gem kind 5 in every cell, used to exhibit the
arcade accessor's off-by-one at the x = 0 / y = 0 border. -/
def allFivesBoard : Board := fun _ _ => 5

/-- C2: for the main.py / pygame_gem.py accessor, `get_gem_at` returns the
null sentinel exactly on coordinates outside [0,W)x[0,H) and returns the
stored cell value on every in-bounds coordinate (the function is total, so
no exception is possible).  The arcade_gem.py accessor violates this
contract: its bounds test uses `0 < x` / `0 < y` instead of `0 <= x` /
`0 <= y`, so the in-bounds coordinate (0, 0) is reported as out of bounds. -/
theorem c2_get_gem_at_contract :
    (∀ (b : Board) (x y : Int),
      (get_gem_at b x y = none ↔ (x < 0 ∨ y < 0 ∨ BOARD_WIDTH ≤ x ∨ BOARD_HEIGHT ≤ y)) ∧
      (get_gem_at b x y = some (b x y) ↔
        (0 ≤ x ∧ x < BOARD_WIDTH ∧ 0 ≤ y ∧ y < BOARD_HEIGHT))) ∧
    arcade_get_gem_at allFivesBoard 0 0 = none ∧
    get_gem_at allFivesBoard 0 0 = some 5 := by
  refine ⟨fun b x y => ⟨?_, ?_⟩, by decide, by decide⟩
  · unfold get_gem_at
    split
    next h => simpa using h
    next h => simpa using h
  · unfold get_gem_at
    split
    next h => simp only [reduceCtorEq, false_iff]; omega
    next h => simp only [Option.some.injEq, true_iff]; omega

/-- Direction enum shared by all three sources. -/
inductive Direction where
  | up
  | down
  | left
  | right
deriving DecidableEq, Repr

/-- The (dx, dy) board displacement that `move_gems` applies for each
direction (main.py lines 606-627, identical in the two ports):
LEFT moves x-1, RIGHT x+1, DOWN y+1, UP y-1. -/
def moveOffset : Direction → Int × Int
  | Direction.left => (-1, 0)
  | Direction.right => (1, 0)
  | Direction.down => (0, 1)
  | Direction.up => (0, -1)

/-- Direction assignment from main.py `get_swapping_gems` (lines 291-323),
given the two gems' coordinates; `none` embeds the `(None, None)`
not-adjacent return. -/
def mainSwapDirections (fx fy sx sy : Int) : Option (Direction × Direction) :=
  if fx = sx + 1 ∧ fy = sy then some (Direction.left, Direction.right)
  else if fx = sx - 1 ∧ fy = sy then some (Direction.right, Direction.left)
  else if fy = sy + 1 ∧ fx = sx then some (Direction.up, Direction.down)
  else if fy = sy - 1 ∧ fx = sx then some (Direction.down, Direction.up)
  else none

/-- Direction assignment from arcade_gem.py `get_swapping_gems`
(lines 325-348); the source mutates the two gems and returns a Bool, with
`none` embedding the `False` (no mutation) branch.  The case analysis is
identical to main.py's. -/
def arcadeSwapDirections (fx fy sx sy : Int) : Option (Direction × Direction) :=
  if fx = sx + 1 ∧ fy = sy then some (Direction.left, Direction.right)
  else if fx = sx - 1 ∧ fy = sy then some (Direction.right, Direction.left)
  else if fy = sy + 1 ∧ fx = sx then some (Direction.up, Direction.down)
  else if fy = sy - 1 ∧ fx = sx then some (Direction.down, Direction.up)
  else none

/-- Direction assignment from pygame_gem.py `GemInfo.prepare_swap`
(lines 109-127), for a pair already checked adjacent: the gem fields
(sx, sy) are `self`, (ox, oy) are `other`; `sd`/`od` are the incoming
`direction` fields, kept unchanged when no branch fires. -/
def pygamePrepareSwap (sx sy ox oy : Int) (sd od : Direction) :
    Direction × Direction :=
  if sx > ox ∧ sy = oy then (Direction.left, Direction.right)
  else if sx < ox ∧ sy = oy then (Direction.right, Direction.left)
  else if sx = ox ∧ sy < oy then (Direction.up, Direction.down)
  else if sx = ox ∧ sy > oy then (Direction.down, Direction.up)
  else (sd, od)

/-- C10: in main.py and arcade_gem.py, whenever the pair is adjacent the
assigned directions move each gem onto the other gem's cell (under the
`move_gems` displacement semantics), i.e. each direction points from its
own cell toward the other gem.  pygame_gem.py's `prepare_swap` violates
this for vertical pairs: a gem directly above the other (smaller y) is
given UP, which points away from the other gem. -/
theorem c10_swap_directions :
    (∀ fx fy sx sy d1 d2,
      mainSwapDirections fx fy sx sy = some (d1, d2) →
        fx + (moveOffset d1).1 = sx ∧ fy + (moveOffset d1).2 = sy ∧
        sx + (moveOffset d2).1 = fx ∧ sy + (moveOffset d2).2 = fy) ∧
    (∀ fx fy sx sy d1 d2,
      arcadeSwapDirections fx fy sx sy = some (d1, d2) →
        fx + (moveOffset d1).1 = sx ∧ fy + (moveOffset d1).2 = sy ∧
        sx + (moveOffset d2).1 = fx ∧ sy + (moveOffset d2).2 = fy) ∧
    pygamePrepareSwap 0 0 0 1 Direction.down Direction.down =
      (Direction.up, Direction.down) ∧
    (0 : Int) + (moveOffset Direction.up).2 ≠ (1 : Int) := by
  refine ⟨?_, ?_, by decide, by decide⟩ <;>
  · intro fx fy sx sy d1 d2 h
    first
    | unfold mainSwapDirections at h
    | unfold arcadeSwapDirections at h
    split at h
    next hc => injection h with h; cases h; simp [moveOffset]; omega
    next =>
    split at h
    next hc => injection h with h; cases h; simp [moveOffset]; omega
    next =>
    split at h
    next hc => injection h with h; cases h; simp [moveOffset]; omega
    next =>
    split at h
    next hc => injection h with h; cases h; simp [moveOffset]; omega
    next => exact absurd h (by simp)

/-- Witness for C10 at the concrete adjacent pair (1,0)-(0,0): main.py
assigns LEFT to the first gem and the displacement lands on the second. -/
theorem c10_swap_directions_witness :
    (1 : Int) + (moveOffset Direction.left).1 = 0 ∧
    (0 : Int) + (moveOffset Direction.left).2 = 0 := by
  have h := c10_swap_directions.1 1 0 0 0 Direction.left Direction.right
    (by decide)
  exact ⟨h.1, h.2.1⟩

/-- Adjacency test from pygame_gem.py `GemInfo.is_adjacent_to`
(lines 95-107): on identical coordinates it returns False; otherwise it
tests `((dx^2 + dy^2) ** 0.5) <= 1`.  For integer dx, dy the float square
root comparison is exact, and sqrt(d) <= 1 holds exactly when d <= 1, so
the test is embedded as `dx^2 + dy^2 <= 1`. -/
def pygame_is_adjacent_to (ax ay bx by_ : Int) : Bool :=
  if ax = bx ∧ ay = by_ then false
  else decide ((ax - bx) ^ 2 + (ay - by_) ^ 2 ≤ 1)

/-- Adjacency test from arcade_gem.py `GemInfo.is_adjacent_to`
(lines 55-67): on identical coordinates it raises ValueError (embedded as
`Except.error` carrying the message); otherwise the same distance test as
the pygame version. -/
def arcade_is_adjacent_to (ax ay bx by_ : Int) : Except String Bool :=
  if ax = bx ∧ ay = by_ then
    Except.error ("Gems occupy the same space at (" ++ toString ax ++ ", "
      ++ toString ay ++ ")")
  else Except.ok (decide ((ax - bx) ^ 2 + (ay - by_) ^ 2 ≤ 1))

/-- C6: applied to a gem and itself, arcade_gem.py's adjacency test signals
the invalid-input error (a ValueError, distinct from returning False) and
never returns true; pygame_gem.py's test instead silently returns False —
merely "not adjacent" — even though its own docstring promises a
ValueError for two gems occupying the same space. -/
theorem c6_same_cell_adjacency :
    ∀ ax ay : Int,
      (∃ msg, arcade_is_adjacent_to ax ay ax ay = Except.error msg) ∧
      (∀ r, arcade_is_adjacent_to ax ay ax ay ≠ Except.ok r) ∧
      pygame_is_adjacent_to ax ay ax ay = false := by
  intro ax ay
  refine ⟨?_, fun r => ?_, ?_⟩
  · refine ⟨"Gems occupy the same space at (" ++ toString ax ++ ", "
      ++ toString ay ++ ")", ?_⟩
    unfold arcade_is_adjacent_to
    exact if_pos ⟨rfl, rfl⟩
  · unfold arcade_is_adjacent_to
    rw [if_pos ⟨rfl, rfl⟩]
    simp
  · unfold pygame_is_adjacent_to
    exact if_pos ⟨rfl, rfl⟩

/-- Swap-then-revert from the bad-swap branch of main.py `run_game`
(lines 196-219): the two image numbers are captured from the board before
the swap (`get_swapping_gems`), the swap writes each gem's captured value
into the other gem's cell, and the revert writes each gem's captured value
back into its own cell. -/
def mainSwapThenRevert (b : Board) (fx fy sx sy : Int) : Board :=
  let firstImage := b fx fy
  let secondImage := b sx sy
  let swapped := setCell (setCell b fx fy secondImage) sx sy firstImage
  setCell (setCell swapped fx fy firstImage) sx sy secondImage

/-- Swap-then-revert from the bad-swap branch of pygame_gem.py `run_game`
(lines 686-713): the swap is as in main.py, but the "swap the gems back"
assignments repeat the swap writes (first cell receives the second gem's
image again) instead of restoring the captured originals. -/
def pygameSwapThenRevert (b : Board) (fx fy sx sy : Int) : Board :=
  let firstImage := b fx fy
  let secondImage := b sx sy
  let swapped := setCell (setCell b fx fy secondImage) sx sy firstImage
  setCell (setCell swapped fx fy secondImage) sx sy firstImage

/-- Column compaction from main.py `pull_down_all_gems` (lines 403-413) and
pygame_gem.py `GameBoard.pull_down_all_gems` (lines 371-381): collect the
non-empty values of the column top-to-bottom and rebuild the column as
`[EMPTY_SPACE] * (BOARD_HEIGHT - len(gems))` followed by those values. -/
def pullDownColumn (col : List Int) : List Int :=
  let gems := col.filter (fun v => decide (v ≠ EMPTY_SPACE))
  List.replicate (BOARD_HEIGHT.toNat - gems.length) EMPTY_SPACE ++ gems

/-- Whole-board gravity pass: the per-column rebuild applied to every
column (`for x in range(BOARD_WIDTH): board[x] = ...`). -/
def pull_down_all_gems (board : List (List Int)) : List (List Int) :=
  board.map pullDownColumn

/-- Indexing into a block of padding followed by a payload list. -/
theorem getD_replicate_append (k : Nat) (d : Int) (gems : List Int) (i : Nat) :
    (List.replicate k d ++ gems).getD i d =
      if i < k then d else gems.getD (i - k) d := by
  induction k generalizing i with
  | zero => simp
  | succ n ih =>
    cases i with
    | zero => simp [List.replicate_succ]
    | succ m =>
      simp only [List.replicate_succ, List.cons_append, List.getD_cons_succ, ih,
        Nat.succ_lt_succ_iff, Nat.succ_sub_succ]

/-- C8: after one gravity pass, every column of height BOARD_HEIGHT keeps
its height, keeps its top-to-bottom sequence of non-empty values, and has
no empty cell below a non-empty cell (whenever row i holds a gem, every
row j below it holds a gem, so gems form a contiguous block ending at the
bottom row with all empties above). -/
theorem c8_pull_down_settles :
    ∀ (board : List (List Int)) (x : Nat), x < board.length →
      (board.getD x []).length = BOARD_HEIGHT.toNat →
      ((pull_down_all_gems board).getD x []).length = BOARD_HEIGHT.toNat ∧
      ((pull_down_all_gems board).getD x []).filter
          (fun v => decide (v ≠ EMPTY_SPACE)) =
        (board.getD x []).filter (fun v => decide (v ≠ EMPTY_SPACE)) ∧
      (∀ i j : Nat, i < j →
        j < ((pull_down_all_gems board).getD x []).length →
        ((pull_down_all_gems board).getD x []).getD i EMPTY_SPACE ≠ EMPTY_SPACE →
        ((pull_down_all_gems board).getD x []).getD j EMPTY_SPACE ≠ EMPTY_SPACE) := by
  intro board x hx hlen
  have hmap : (pull_down_all_gems board).getD x [] =
      pullDownColumn (board.getD x []) := by
    unfold pull_down_all_gems
    rw [List.getD_eq_getElem?_getD, List.getD_eq_getElem?_getD,
      List.getElem?_map]
    rw [List.getElem?_eq_getElem hx]
    simp
  rw [hmap]
  set col := board.getD x [] with hcol
  set gems := col.filter (fun v => decide (v ≠ EMPTY_SPACE)) with hgems
  have hgle : gems.length ≤ col.length := List.length_filter_le _ _
  have hglen : gems.length ≤ BOARD_HEIGHT.toNat := by omega
  have hres : pullDownColumn col =
      List.replicate (BOARD_HEIGHT.toNat - gems.length) EMPTY_SPACE ++ gems := rfl
  have hmem : ∀ v ∈ gems, v ≠ EMPTY_SPACE := by
    intro v hv
    have := List.mem_filter.mp hv
    simpa using this.2
  refine ⟨?_, ?_, ?_⟩
  · rw [hres]
    simp
    omega
  · rw [hres, List.filter_append]
    have h1 : (List.replicate (BOARD_HEIGHT.toNat - gems.length)
        EMPTY_SPACE).filter (fun v => decide (v ≠ EMPTY_SPACE)) = [] := by
      rw [List.filter_eq_nil_iff]
      intro a ha
      have := List.eq_of_mem_replicate ha
      simp [this]
    have h2 : gems.filter (fun v => decide (v ≠ EMPTY_SPACE)) = gems := by
      rw [List.filter_eq_self]
      intro a ha
      simpa using hmem a ha
    rw [h1, h2]
    simp
  · intro i j hij hj hi
    rw [hres] at hi hj ⊢
    rw [getD_replicate_append] at hi ⊢
    simp at hj
    split at hi
    · exact absurd rfl hi
    next hik =>
      split
      next hjk => omega
      next hjk =>
        have hjlt : j - (BOARD_HEIGHT.toNat - gems.length) < gems.length := by
          omega
        rw [List.getD_eq_getElem _ _ hjlt]
        exact hmem _ (List.getElem_mem _)

/-- Witness for C8 on a concrete 1-column board with gems 2 and 3
interleaved with empties: the settled column keeps height 8. -/
theorem c8_pull_down_settles_witness :
    ((pull_down_all_gems [[-1, 2, -1, 3, -1, -1, -1, -1]]).getD 0 []).length =
      BOARD_HEIGHT.toNat := by
  exact (c8_pull_down_settles [[-1, 2, -1, 3, -1, -1, -1, -1]] 0
    (by decide) (by decide)).1

/-- One step of the neighbor-exclusion loop in `get_drop_slots`
(main.py lines 388-394, pygame_gem.py lines 286-292, arcade_gem.py
lines 256-269): look up the neighbor through the bounds-checked accessor
and, when the lookup succeeded and the value is a current candidate,
remove its first occurrence (`list.remove`). -/
def removeIfNeighbor (sc : Board) (x y : Int) (l : List Int)
    (off : Int × Int) : List Int :=
  match get_gem_at sc (x + off.1) (y + off.2) with
  | none => l
  | some g => if g ∈ l then l.erase g else l

/-- Candidate list for one empty cell: start from the configured kind list
and run the exclusion loop over the four orthogonal neighbor offsets
`((0,-1), (1,0), (0,1), (-1,0))`, reading neighbors from the board `sc`. -/
def possible_gems_at (sc : Board) (x y : Int) (init : List Int) : List Int :=
  let l1 := removeIfNeighbor sc x y init (0, -1)
  let l2 := removeIfNeighbor sc x y l1 (1, 0)
  let l3 := removeIfNeighbor sc x y l2 (0, 1)
  removeIfNeighbor sc x y l3 (-1, 0)

/-- Kind list `list(range(len(GEM_IMAGES)))` used by main.py and
pygame_gem.py: kinds 0 .. K-1. -/
def gemRange (K : Nat) : List Int :=
  (List.range K).map Int.ofNat

/-- Kind list `list(range(1, GEM_COUNT + 1))` used by arcade_gem.py:
kinds 1 .. K. -/
def arcadeGemRange (K : Nat) : List Int :=
  (List.range K).map (fun i => Int.ofNat (i + 1))

/-- Each exclusion step removes at most one candidate. -/
theorem removeIfNeighbor_length (sc : Board) (x y : Int) (l : List Int)
    (off : Int × Int) :
    l.length ≤ (removeIfNeighbor sc x y l off).length + 1 := by
  unfold removeIfNeighbor
  split
  · omega
  next g _ =>
    split
    next hmem =>
      rw [List.length_erase_of_mem hmem]
      omega
    · omega

/-- C7: the candidate list survives the exclusion loop with at least
K - 4 entries, so with the configured precondition K >= 5 it is never
empty: for every scratch board and cell, `random.choice` in the refill
step runs on a non-empty list and the zero-candidate failure cannot be
reached, for the main.py/pygame kind range 0..K-1 as well as the arcade
kind range 1..K. -/
theorem c7_candidates_nonempty :
    ∀ (sc : Board) (x y : Int) (K : Nat), 5 ≤ K →
      possible_gems_at sc x y (gemRange K) ≠ [] ∧
      possible_gems_at sc x y (arcadeGemRange K) ≠ [] := by
  intro sc x y K hK
  have hlen : ∀ init : List Int, init.length = K →
      possible_gems_at sc x y init ≠ [] := by
    intro init hinit
    unfold possible_gems_at
    intro hnil
    have h1 := removeIfNeighbor_length sc x y init (0, -1)
    have h2 := removeIfNeighbor_length sc x y
      (removeIfNeighbor sc x y init (0, -1)) (1, 0)
    have h3 := removeIfNeighbor_length sc x y
      (removeIfNeighbor sc x y (removeIfNeighbor sc x y init (0, -1)) (1, 0))
      (0, 1)
    have h4 := removeIfNeighbor_length sc x y
      (removeIfNeighbor sc x y
        (removeIfNeighbor sc x y (removeIfNeighbor sc x y init (0, -1)) (1, 0))
        (0, 1)) (-1, 0)
    rw [hnil] at h4
    simp at h4
    omega
  refine ⟨hlen _ ?_, hlen _ ?_⟩
  · unfold gemRange
    simp
  · unfold arcadeGemRange
    simp

/-- Witness for C7 with the configured K = 7 on an all-empty scratch board
at cell (0, 0). -/
theorem c7_candidates_nonempty_witness :
    possible_gems_at (fun _ _ => EMPTY_SPACE) 0 0 (gemRange NUM_GEM_IMAGES) ≠ [] := by
  exact (c7_candidates_nonempty (fun _ _ => EMPTY_SPACE) 0 0 NUM_GEM_IMAGES
    (by decide)).1

/-- Horizontal run collection from main.py `find_matching_gems`
(lines 523-531): starting at (x, y), while the scratch copy still shows
`target` at the cursor, record the cell, blank it on the scratch copy and
advance right.  The loop always stops because the cursor leaves the board
(`get_gem_at` returns the none sentinel, which never equals
`some target`); the fuel argument bounds the recursion and is chosen large
enough (BOARD_WIDTH + 1) never to be exhausted from an on-board start. -/
def collectRunH : Nat → Board → Int → Int → Int → List (Int × Int) × Board
  | 0, copy, _, _, _ => ([], copy)
  | Nat.succ fuel, copy, x, y, target =>
    if get_gem_at copy x y = some target then
      let copy2 := setCell copy x y EMPTY_SPACE
      let rest := collectRunH fuel copy2 (x + 1) y target
      ((x, y) :: rest.1, rest.2)
    else ([], copy)

/-- Vertical run collection from main.py `find_matching_gems`
(lines 541-548); as `collectRunH` but advancing downward. -/
def collectRunV : Nat → Board → Int → Int → Int → List (Int × Int) × Board
  | 0, copy, _, _, _ => ([], copy)
  | Nat.succ fuel, copy, x, y, target =>
    if get_gem_at copy x y = some target then
      let copy2 := setCell copy x y EMPTY_SPACE
      let rest := collectRunV fuel copy2 x (y + 1) target
      ((x, y) :: rest.1, rest.2)
    else ([], copy)

/-- Per-cell step of main.py `find_matching_gems` (lines 514-549): test the
horizontal triple on the scratch copy, consume the run if found, then test
the vertical triple on the (possibly updated) scratch copy and consume it
likewise; found runs are appended to the group list in discovery order. -/
def checkCellMain (st : Board × List (List (Int × Int))) (x y : Int) :
    Board × List (List (Int × Int)) :=
  let st1 :=
    if get_gem_at st.1 x y = get_gem_at st.1 (x + 1) y ∧
       get_gem_at st.1 (x + 1) y = get_gem_at st.1 (x + 2) y ∧
       get_gem_at st.1 x y ≠ some EMPTY_SPACE then
      let target := st.1 x y
      let r := collectRunH (BOARD_WIDTH.toNat + 1) st.1 x y target
      (r.2, st.2 ++ [r.1])
    else st
  if get_gem_at st1.1 x y = get_gem_at st1.1 x (y + 1) ∧
     get_gem_at st1.1 x (y + 1) = get_gem_at st1.1 x (y + 2) ∧
     get_gem_at st1.1 x y ≠ some EMPTY_SPACE then
    let target := st1.1 x y
    let r := collectRunV (BOARD_HEIGHT.toNat + 1) st1.1 x y target
    (r.2, st1.2 ++ [r.1])
  else st1

/-- Match detector from main.py `find_matching_gems` (lines 506-551): scan
every cell in column-major order (x outer, y inner, both ascending) over a
scratch deep copy of the board, collecting maximal runs. -/
def find_matching_gems (b : Board) : List (List (Int × Int)) :=
  ((List.range BOARD_WIDTH.toNat).foldl (fun st xn =>
    (List.range BOARD_HEIGHT.toNat).foldl (fun st2 yn =>
      checkCellMain st2 (Int.ofNat xn) (Int.ofNat yn)) st)
    (b, [])).2

/-- Horizontal run collection from pygame_gem.py
`GameBoard.find_matching_gems` (lines 219-227): the while condition reads
the LIVE board `orig` (`self.get_gem_at`), while the blanking writes go to
the scratch copy. -/
def collectRunHP (orig : Board) :
    Nat → Board → Int → Int → Int → List (Int × Int) × Board
  | 0, copy, _, _, _ => ([], copy)
  | Nat.succ fuel, copy, x, y, target =>
    if get_gem_at orig x y = some target then
      let copy2 := setCell copy x y EMPTY_SPACE
      let rest := collectRunHP orig fuel copy2 (x + 1) y target
      ((x, y) :: rest.1, rest.2)
    else ([], copy)

/-- Vertical run collection from pygame_gem.py
`GameBoard.find_matching_gems` (lines 238-246); reads the live board,
writes the scratch copy. -/
def collectRunVP (orig : Board) :
    Nat → Board → Int → Int → Int → List (Int × Int) × Board
  | 0, copy, _, _, _ => ([], copy)
  | Nat.succ fuel, copy, x, y, target =>
    if get_gem_at orig x y = some target then
      let copy2 := setCell copy x y EMPTY_SPACE
      let rest := collectRunVP orig fuel copy2 x (y + 1) target
      ((x, y) :: rest.1, rest.2)
    else ([], copy)

/-- Per-cell step of pygame_gem.py `GameBoard.find_matching_gems`
(lines 210-248): unlike main.py, the triple conditions and the run-walk
read the LIVE board (`self.get_gem_at`), while `target_gem` is taken from
the scratch copy (`board_copy[x][y]`) and blanking writes to the scratch
copy. -/
def checkCellPygame (orig : Board) (st : Board × List (List (Int × Int)))
    (x y : Int) : Board × List (List (Int × Int)) :=
  let st1 :=
    if get_gem_at orig x y = get_gem_at orig (x + 1) y ∧
       get_gem_at orig (x + 1) y = get_gem_at orig (x + 2) y ∧
       get_gem_at orig x y ≠ some EMPTY_SPACE then
      let target := st.1 x y
      let r := collectRunHP orig (BOARD_WIDTH.toNat + 1) st.1 x y target
      (r.2, st.2 ++ [r.1])
    else st
  if get_gem_at orig x y = get_gem_at orig x (y + 1) ∧
     get_gem_at orig x (y + 1) = get_gem_at orig x (y + 2) ∧
     get_gem_at orig x y ≠ some EMPTY_SPACE then
    let target := st1.1 x y
    let r := collectRunVP orig (BOARD_HEIGHT.toNat + 1) st1.1 x y target
    (r.2, st1.2 ++ [r.1])
  else st1

/-- Match detector from pygame_gem.py `GameBoard.find_matching_gems`
(lines 202-250). -/
def pygame_find_matching_gems (b : Board) : List (List (Int × Int)) :=
  ((List.range BOARD_WIDTH.toNat).foldl (fun st xn =>
    (List.range BOARD_HEIGHT.toNat).foldl (fun st2 yn =>
      checkCellPygame b st2 (Int.ofNat xn) (Int.ofNat yn)) st)
    (b, [])).2

/-- Score accumulation for one detection pass, from main.py `run_game`
(line 233) and pygame_gem.py `run_game` (line 729):
`score_add += 10 + (len(gem_set) - 3) * 10` summed over the groups of the
pass. -/
def scoreAdd (groups : List (List (Int × Int))) : Int :=
  groups.foldl (fun acc g => acc + (10 + ((g.length : Int) - 3) * 10)) 0

set_option maxRecDepth 10000

/-- Concrete board with a single vertical run of exactly four 2-gems at
column 0, rows 0-3; all other cells follow a 2x2 parity tiling over the
kinds 3-6, which admits no run of three anywhere. -/
def boardA : Board := fun x y =>
  if x = 0 ∧ y < 4 then 2 else 3 + x % 2 + 2 * (y % 2)

/-- Concrete board with a single horizontal run of exactly four 2-gems at
row 3, columns 0-3 (the spec's `[2,2,2,2]` scenario); all other cells
follow the matchless parity tiling over kinds 3-6. -/
def boardB : Board := fun x y =>
  if y = 3 ∧ x < 4 then 2 else 3 + x % 2 + 2 * (y % 2)

/-- C3: on a board whose only match is one vertical run of four equal
gems, main.py's detector returns exactly that one group of four cells —
size at least 3, one kind, contiguous in one column.  pygame_gem.py's
detector additionally returns an EMPTY group (size 0 < 3): because its
scan conditions read the live board instead of the scratch copy, the cell
one below the run's head still looks like a triple start, but its scratch
value is already blanked, so the run walk collects nothing. -/
theorem c3_match_groups :
    find_matching_gems boardA = [[(0, 0), (0, 1), (0, 2), (0, 3)]] ∧
    pygame_find_matching_gems boardA =
      [[(0, 0), (0, 1), (0, 2), (0, 3)], []] ∧
    ([] : List (Int × Int)).length < 3 := by
  refine ⟨by decide, by decide, by decide⟩

/-- C9: on the spec's `[2,2,2,2]` horizontal-run scenario, main.py's
detector returns exactly one group holding the run's 4 coordinates (not
two overlapping groups of 3) and the pass's score delta is
10 + 10 * (4 - 3) = 20.  pygame_gem.py's detector returns the 4-group plus
a spurious empty group, making its score delta
20 + (10 + (0 - 3) * 10) = 0. -/
theorem c9_four_run_single_group :
    find_matching_gems boardB = [[(0, 3), (1, 3), (2, 3), (3, 3)]] ∧
    scoreAdd (find_matching_gems boardB) = 20 ∧
    pygame_find_matching_gems boardB =
      [[(0, 3), (1, 3), (2, 3), (3, 3)], []] ∧
    scoreAdd (pygame_find_matching_gems boardB) = 0 := by
  refine ⟨by decide, by decide, by decide, by decide⟩

/-- The eight one-off patterns from main.py `can_make_move` (lines 421-430)
and pygame_gem.py `GameBoard.can_make_move` (lines 156-165): three cell
offsets each, denoting gems one swap away from a triple. -/
def one_off_patterns : List ((Int × Int) × (Int × Int) × (Int × Int)) :=
  [((0, 1), (1, 0), (2, 0)),
   ((0, 1), (1, 1), (2, 0)),
   ((0, 0), (1, 1), (2, 0)),
   ((0, 1), (1, 0), (2, 1)),
   ((0, 0), (1, 0), (2, 1)),
   ((0, 0), (1, 1), (2, 1)),
   ((0, 0), (0, 2), (0, 3)),
   ((0, 0), (0, 1), (0, 3))]

/-- Python's chained comparison `a == b == c != None` from the pattern
test: (a == b) and (b == c) and (c != None).  Note it compares against
None only — the EMPTY_SPACE sentinel (-1) is NOT excluded. -/
def chainEqNotNone (a b c : Option Int) : Bool :=
  a == b && b == c && c != none

/-- Move-availability scan from main.py `can_make_move` (lines 416-465)
and pygame_gem.py `GameBoard.can_make_move` (lines 151-200): for every
cell and every pattern, test the three referenced cells in row-major form
and in transposed form (offsets component-swapped), returning true on the
first hit and false after the full scan. -/
def can_make_move (b : Board) : Bool :=
  (List.range BOARD_WIDTH.toNat).any fun xn =>
    (List.range BOARD_HEIGHT.toNat).any fun yn =>
      one_off_patterns.any fun pat =>
        chainEqNotNone
          (get_gem_at b (Int.ofNat xn + pat.1.1) (Int.ofNat yn + pat.1.2))
          (get_gem_at b (Int.ofNat xn + pat.2.1.1) (Int.ofNat yn + pat.2.1.2))
          (get_gem_at b (Int.ofNat xn + pat.2.2.1) (Int.ofNat yn + pat.2.2.2)) ||
        chainEqNotNone
          (get_gem_at b (Int.ofNat xn + pat.1.2) (Int.ofNat yn + pat.1.1))
          (get_gem_at b (Int.ofNat xn + pat.2.1.2) (Int.ofNat yn + pat.2.1.1))
          (get_gem_at b (Int.ofNat xn + pat.2.2.2) (Int.ofNat yn + pat.2.2.1))

/-- Comparator following the claim's words instead of the source: the
three referenced cells must hold equal, NON-EMPTY values (so three equal
empty-sentinel cells do not count).  Used only to compare the claimed
behavior against the implemented one. -/
def chainEqNonEmptySpec (a b c : Option Int) : Bool :=
  a == b && b == c && c != none && c != some EMPTY_SPACE

/-- Move-availability scan as the claim describes it: identical scan, but
requiring the matched cells to be non-empty. -/
def specCanMakeMoveNonEmpty (b : Board) : Bool :=
  (List.range BOARD_WIDTH.toNat).any fun xn =>
    (List.range BOARD_HEIGHT.toNat).any fun yn =>
      one_off_patterns.any fun pat =>
        chainEqNonEmptySpec
          (get_gem_at b (Int.ofNat xn + pat.1.1) (Int.ofNat yn + pat.1.2))
          (get_gem_at b (Int.ofNat xn + pat.2.1.1) (Int.ofNat yn + pat.2.1.2))
          (get_gem_at b (Int.ofNat xn + pat.2.2.1) (Int.ofNat yn + pat.2.2.2)) ||
        chainEqNonEmptySpec
          (get_gem_at b (Int.ofNat xn + pat.1.2) (Int.ofNat yn + pat.1.1))
          (get_gem_at b (Int.ofNat xn + pat.2.1.2) (Int.ofNat yn + pat.2.1.1))
          (get_gem_at b (Int.ofNat xn + pat.2.2.2) (Int.ofNat yn + pat.2.2.1))

/-- The all-empty board (every cell holds the EMPTY_SPACE sentinel). -/
def blankBoard : Board := fun _ _ => EMPTY_SPACE

/-- C5 counterexample: on the all-empty board the implemented
`can_make_move` returns true — three equal empty-sentinel cells DO make it
return true, because the chained comparison only rules out the
out-of-bounds None, not EMPTY_SPACE — while no cell/pattern with equal
non-empty values exists (the claim-faithful scan returns false). -/
theorem c5_counterexample :
    can_make_move blankBoard = true ∧
    specCanMakeMoveNonEmpty blankBoard = false := by
  refine ⟨by decide, by decide⟩

/-- Unfolding of the implemented pattern comparator. -/
theorem chainEqNotNone_eq_true (a b c : Option Int) :
    chainEqNotNone a b c = true ↔ (a = b ∧ b = c ∧ c ≠ none) := by
  unfold chainEqNotNone
  simp [and_assoc]

/-- C5 amended: `can_make_move` returns true exactly when some scan cell
and pattern (in row-major or transposed form) has its 3 referenced cells
in-bounds (not None) and holding equal values — the empty sentinel is
allowed — and therefore returns false only when the exhaustive scan finds
no such configuration. -/
theorem c5_can_make_move_characterization :
    ∀ b : Board, can_make_move b = true ↔
      ∃ xn, xn < BOARD_WIDTH.toNat ∧
        ∃ yn, yn < BOARD_HEIGHT.toNat ∧
          ∃ pat, pat ∈ one_off_patterns ∧
            ((get_gem_at b (Int.ofNat xn + pat.1.1) (Int.ofNat yn + pat.1.2) =
                get_gem_at b (Int.ofNat xn + pat.2.1.1) (Int.ofNat yn + pat.2.1.2) ∧
              get_gem_at b (Int.ofNat xn + pat.2.1.1) (Int.ofNat yn + pat.2.1.2) =
                get_gem_at b (Int.ofNat xn + pat.2.2.1) (Int.ofNat yn + pat.2.2.2) ∧
              get_gem_at b (Int.ofNat xn + pat.2.2.1) (Int.ofNat yn + pat.2.2.2) ≠
                none) ∨
             (get_gem_at b (Int.ofNat xn + pat.1.2) (Int.ofNat yn + pat.1.1) =
                get_gem_at b (Int.ofNat xn + pat.2.1.2) (Int.ofNat yn + pat.2.1.1) ∧
              get_gem_at b (Int.ofNat xn + pat.2.1.2) (Int.ofNat yn + pat.2.1.1) =
                get_gem_at b (Int.ofNat xn + pat.2.2.2) (Int.ofNat yn + pat.2.2.1) ∧
              get_gem_at b (Int.ofNat xn + pat.2.2.2) (Int.ofNat yn + pat.2.2.1) ≠
                none)) := by
  intro b
  unfold can_make_move
  simp only [List.any_eq_true, List.mem_range, Bool.or_eq_true,
    chainEqNotNone_eq_true]

/-- The swap applied by `run_game` in all versions: each gem's captured
image number is written into the other gem's cell, both values having been
read from the board before either write. -/
def swapCells (b : Board) (fx fy sx sy : Int) : Board :=
  setCell (setCell b fx fy (b sx sy)) sx sy (b fx fy)

/-- Concrete board for the bad-swap round trip: gem 0 at (0,0), gem 1 at
(1,0), the matchless parity tiling over kinds 3-6 everywhere else; the
swap of (0,0) and (1,0) produces no match. -/
def c1Board : Board := fun x y =>
  if x = 0 ∧ y = 0 then 0
  else if x = 1 ∧ y = 0 then 1
  else 3 + x % 2 + 2 * (y % 2)

/-- C1: main.py's bad-swap branch restores the board exactly — swapping
any two cells and then writing the captured originals back yields the
original board at every coordinate (the score is untouched on this
branch).  pygame_gem.py's "swap the gems back" branch instead repeats the
swap writes, so after a no-match swap of the adjacent cells (0,0) and
(1,0) of `c1Board` the board still holds the swapped value 1 at (0,0)
instead of the original 0. -/
theorem c1_swap_revert_round_trip :
    (∀ (b : Board) (fx fy sx sy x y : Int),
      mainSwapThenRevert b fx fy sx sy x y = b x y) ∧
    find_matching_gems (swapCells c1Board 0 0 1 0) = [] ∧
    pygameSwapThenRevert c1Board 0 0 1 0 0 0 = 1 ∧
    c1Board 0 0 = 0 := by
  refine ⟨?_, by decide, by decide, by decide⟩
  intro b fx fy sx sy x y
  unfold mainSwapThenRevert setCell
  by_cases h1 : x = sx ∧ y = sy
  · obtain ⟨hx, hy⟩ := h1
    subst hx
    subst hy
    simp
  · rw [if_neg h1, if_neg h1]
    by_cases h2 : x = fx ∧ y = fy
    · obtain ⟨hx, hy⟩ := h2
      subst hx
      subst hy
      simp [h1]
    · rw [if_neg h2, if_neg h2]

/-- Gravity compaction lifted to the functional board representation:
in-bounds cells are read from the rebuilt column (`pullDownColumn` applied
to the column's 8 cells); used as the `board_copy` preparation step of
`get_drop_slots`. -/
def pullDownBoardFun (b : Board) : Board :=
  fun x y =>
    if 0 ≤ x ∧ x < BOARD_WIDTH ∧ 0 ≤ y ∧ y < BOARD_HEIGHT then
      (pullDownColumn ((List.range BOARD_HEIGHT.toNat).map
        (fun yy => b x (Int.ofNat yy)))).getD y.toNat EMPTY_SPACE
    else b x y

/-- Drop-slot generation from main.py `get_drop_slots` (lines 370-400):
deep-copy the board, pull all gems down, then for each column scan rows
bottom-to-top; each empty cell's candidate list excludes the four
orthogonal neighbors READ FROM THE EVOLVING SCRATCH COPY (`board_copy`),
the chosen kind (here `choose`, embedding `random.choice`) is written back
into the scratch copy and appended to the column's slot. -/
def mainGetDropSlots (choose : List Int → Int) (b : Board) :
    List (List Int) :=
  ((List.range BOARD_WIDTH.toNat).foldl
    (fun (st : Board × List (List Int)) xn =>
      let x : Int := Int.ofNat xn
      let inner := (List.range BOARD_HEIGHT.toNat).foldl
        (fun (st2 : Board × List Int) i =>
          let y : Int := BOARD_HEIGHT - 1 - Int.ofNat i
          if st2.1 x y = EMPTY_SPACE then
            let possible := possible_gems_at st2.1 x y (gemRange NUM_GEM_IMAGES)
            let newGem := choose possible
            (setCell st2.1 x y newGem, st2.2 ++ [newGem])
          else st2)
        (st.1, [])
      (inner.1, st.2 ++ [inner.2]))
    (pullDownBoardFun b, [])).2

/-- Drop-slot generation from pygame_gem.py `GameBoard.get_drop_slots`
(lines 268-298): identical scan and scratch-copy writes, but the neighbor
exclusions are read with `self.get_gem_at` — the ORIGINAL board `b`, not
the evolving scratch copy. -/
def pygameGetDropSlots (choose : List Int → Int) (b : Board) :
    List (List Int) :=
  ((List.range BOARD_WIDTH.toNat).foldl
    (fun (st : Board × List (List Int)) xn =>
      let x : Int := Int.ofNat xn
      let inner := (List.range BOARD_HEIGHT.toNat).foldl
        (fun (st2 : Board × List Int) i =>
          let y : Int := BOARD_HEIGHT - 1 - Int.ofNat i
          if st2.1 x y = EMPTY_SPACE then
            let possible := possible_gems_at b x y (gemRange NUM_GEM_IMAGES)
            let newGem := choose possible
            (setCell st2.1 x y newGem, st2.2 ++ [newGem])
          else st2)
        (st.1, [])
      (inner.1, st.2 ++ [inner.2]))
    (pullDownBoardFun b, [])).2

/-- Concrete already-settled board with two empty cells at the top of
column 0: (0,0) and (0,1) empty, gem 0 at (0,2), (1,0) and (1,1), gem 6
everywhere else. -/
def boardC4 : Board := fun x y =>
  if x = 0 ∧ y < 2 then EMPTY_SPACE
  else if x = 0 ∧ y = 2 then 0
  else if x = 1 ∧ y < 2 then 0
  else 6

/-- C4: with the deterministic pick-first choice, main.py fills column 0
of `boardC4` with kinds [1, 2] — at cell (0,0) the kind 1 just placed at
(0,1) in the scratch copy is excluded.  pygame_gem.py fills [1, 1]: it
reads the exclusion neighbors from the original grid, where (0,1) is
still empty, so nothing stops it from stacking a second 1 directly above
the first — the exclusions do not reflect earlier fills of the pass. -/
theorem c4_drop_slot_exclusions :
    mainGetDropSlots (fun l => l.headD 0) boardC4 =
      [[1, 2], [], [], [], [], [], [], []] ∧
    pygameGetDropSlots (fun l => l.headD 0) boardC4 =
      [[1, 1], [], [], [], [], [], [], []] := by
  refine ⟨by decide, by decide⟩
